import Mathlib

/-!
# SlimMom backend — formal model of the diary / summary / recommendation core

A shallow embedding of the slimmom backend core (routes `auth.js` [diary part],
`summery.js`, and the recommendations router).  JavaScript numbers are modelled
as `ℚ`, timestamps as epoch milliseconds (`ℤ`), Mongo object ids as `String`s.

Date handling conventions of the embedding:

* `new Date(Date.UTC(d.getUTCFullYear(), d.getUTCMonth(), d.getUTCDate()))`
  is the UTC midnight of the instant's UTC calendar day; for an epoch-millisecond
  timestamp `t` that calendar day is `t / 86400000` (Euclidean division, which
  floors for a positive divisor) and the midnight instant is `utcDayStart t`.
* `d.toISOString()` starts with the `YYYY-MM-DD` prefix of UTC midnight of the
  same UTC calendar day, so the source's
  `iso(entry.date).startsWith(iso(todayUtcMidnight).split('T')[0])`
  holds exactly when `utcDay entry.date = utcDay now`.
* `d.toDateString()` renders the calendar date in the *process-local* timezone;
  two instants have equal `toDateString()` exactly when they fall on the same
  local calendar day.  The embedding carries the process timezone as an offset
  `tz` in minutes east of UTC, so that comparison is `localDay tz a = localDay tz b`.
* `date-fns` `startOfDay`/`endOfDay` are local-time midnights:
  `startOfLocalDay tz t` and `startOfLocalDay tz t + msPerDay - 1`.
* Mongoose `populate` resolves a stored object id to the referenced document;
  the embedding compares ids directly for entry/product matching and passes an
  explicit `resolve` map where a populated diary reference is traversed.
-/

def msPerDay : Int := 86400000

/-- UTC calendar-day index of an epoch-millisecond instant (floor division). -/
def utcDay (t : Int) : Int := t / msPerDay

/-- UTC midnight of the instant's UTC calendar day:
`Date.UTC(getUTCFullYear(), getUTCMonth(), getUTCDate())`. -/
def utcDayStart (t : Int) : Int := utcDay t * msPerDay

/-- Calendar-day index of an instant in a process-local timezone sitting
`tz` minutes east of UTC (the day `toDateString()` renders). -/
def localDay (tz t : Int) : Int := utcDay (t + tz * 60000)

/-- The UTC instant of local midnight of the instant's local calendar day
(`date-fns` `startOfDay` in a process whose offset is `tz` minutes). -/
def startOfLocalDay (tz t : Int) : Int := localDay tz t * msPerDay - tz * 60000

/-- `Array.prototype.findIndex`, with `-1` rendered as `none`. -/
def jsFindIndex {α : Type} (p : α → Bool) : List α → Option Nat
  | [] => none
  | x :: xs => if p x then some 0 else (jsFindIndex p xs).map (· + 1)

/-- Error taxonomy of the routes: HTTP 400 (`invalidInput`) and 404 (`notFound`). -/
inductive ApiError where
  | invalidInput
  | notFound
deriving DecidableEq, Repr

instance {ε α : Type} [DecidableEq ε] [DecidableEq α] : DecidableEq (Except ε α) := fun x y =>
  match x, y with
  | .ok a, .ok b =>
    if h : a = b then isTrue (by rw [h]) else isFalse (fun hc => by cases hc; exact h rfl)
  | .error a, .error b =>
    if h : a = b then isTrue (by rw [h]) else isFalse (fun hc => by cases hc; exact h rfl)
  | .ok _, .error _ => isFalse (fun hc => by cases hc)
  | .error _, .ok _ => isFalse (fun hc => by cases hc)

/-- A catalog product (`models/products`): `groupBloodNotAllowed` is an array
whose slots may hold `null` (`none`) or a boolean. -/
structure Product where
  id : String
  title : String
  calories : ℚ
  groupBloodNotAllowed : List (Option Bool)
deriving DecidableEq, Repr

/-- One diary subdocument (`models/diary` entry): `id` is the subdocument `_id`
assigned at write time, `productId` the referenced product's id. -/
structure DiaryEntry where
  id : String
  productId : String
  product_weight : ℚ
  product_Calories : ℚ
  date : Int
deriving DecidableEq, Repr

/-- The per-user diary document. -/
structure Diary where
  id : String
  userId : String
  entries : List DiaryEntry
deriving DecidableEq, Repr

/-- `Product.findById`: Mongo id lookup in the catalog. -/
def findProduct (catalog : List Product) (pid : String) : Option Product :=
  catalog.find? (fun p => p.id == pid)

/-- The `findIndex` predicate of `POST /consumed` (auth.js:419-422):
`entry.productId.toString() === productId.toString() &&
 iso(entry.date).startsWith(iso(today).split('T')[0])`,
i.e. same product id and same UTC calendar day as the write instant. -/
def matchesToday (pid : String) (today : Int) (e : DiaryEntry) : Bool :=
  e.productId == pid && utcDay e.date == today

/-- The replace-in-place-else-append step of `POST /consumed` (auth.js:424-439):
`entries[entryIndex] = newEntry` when `entryIndex > -1`, else `entries.push(newEntry)`. -/
def upsertEntry (p : DiaryEntry → Bool) (entries : List DiaryEntry) (e : DiaryEntry) :
    List DiaryEntry :=
  match jsFindIndex p entries with
  | some i => entries.set i e
  | none => entries ++ [e]

/-- `POST /consumed` (auth.js:390-451), acting on the user's entry list
(a missing diary is the empty list, auth.js:412-414).  The request body fields
are `Option`s; JavaScript's falsy test `!productId || !product_weight` rejects a
missing field and a zero weight.  `now` is the write instant, `newId` the `_id`
Mongoose assigns to the written subdocument. -/
def logConsumption (catalog : List Product) (entries : List DiaryEntry)
    (productId? : Option String) (product_weight? : Option ℚ) (now : Int) (newId : String) :
    Except ApiError (List DiaryEntry) :=
  match productId?, product_weight? with
  | none, _ => .error .invalidInput
  | some _, none => .error .invalidInput
  | some pid, some w =>
    if w = 0 then .error .invalidInput
    else
      match findProduct catalog pid with
      | none => .error .notFound
      | some product =>
        let product_Calories := product.calories * w / 100
        let today := utcDay now
        .ok (upsertEntry (matchesToday pid today) entries
          ⟨newId, pid, w, product_Calories, now⟩)

/-- The Mongo range test `'entries.date': { $gte: lo, $lte: hi }` on one entry. -/
def entryInRange (lo hi : Int) (e : DiaryEntry) : Bool :=
  decide (lo ≤ e.date) && decide (e.date ≤ hi)

/-- `GET /consumed/:date` (auth.js:639-684).  `dateTs` is the parsed `:date`
(a `YYYY-MM-DD` string parses to UTC midnight of that day).  The locating query
spans `[Date.UTC(y,m,d), Date.UTC(y,m,d+1,23,59,59,999)]`, i.e.
`[utcDayStart, utcDayStart + 2*msPerDay - 1]`; a diary that does not match
yields an empty product list (HTTP 200), and the located diary's entries are
then filtered by local-calendar-day equality (`toDateString()`). -/
def listConsumption (tz : Int) (diary? : Option Diary) (dateTs : Int) : List DiaryEntry :=
  let startDate := utcDayStart dateTs
  let endDate := utcDayStart dateTs + 2 * msPerDay - 1
  match diary? with
  | none => []
  | some d =>
    if d.entries.any (entryInRange startDate endDate) then
      if d.entries.isEmpty then []
      else d.entries.filter (fun e => localDay tz e.date == localDay tz dateTs)
    else []

/-- One record of the per-user summary history (`models/summery` `summaryInfo`
item).  The source stores `percentage` as the value of `toFixed(2)`; the
embedding keeps its numeric value. -/
structure SummaryRecord where
  diaryId : String
  daily_left : ℚ
  daily_consumed : ℚ
  daily_rate : ℚ
  percentage : ℚ
deriving DecidableEq, Repr

/-- `x.toFixed(2)` as a rational: round to two decimal places
(round-half-up, the behaviour of `toFixed` on non-negative values). -/
def round2 (q : ℚ) : ℚ := (round (q * 100) : ℚ) / 100

/-- `GET /summary/:date` (summery.js:104-186).  `dateTs` is the parsed `:date`;
`resolve` is Mongoose `populate('summaryInfo.diaryId')`, mapping a stored diary
id to that diary's entry list.  The locating query requires an entry inside the
*local* day window (`date-fns` `startOfDay`/`endOfDay`); otherwise HTTP 404.
On success the consumed total is reduced over **all** entries of the located
diary, the rate is the constant 2800, and the record is upserted into the
history at the first index whose resolved diary has an entry on the same local
calendar day (`toDateString()` equality) as the requested date, else appended.
Returns the fresh record together with the updated history. -/
def getDailySummary (tz : Int) (resolve : String → List DiaryEntry) (diary? : Option Diary)
    (hist : List SummaryRecord) (dateTs : Int) :
    Except ApiError (SummaryRecord × List SummaryRecord) :=
  let startDate := startOfLocalDay tz dateTs
  let endDate := startOfLocalDay tz dateTs + msPerDay - 1
  match diary? with
  | none => .error .notFound
  | some d =>
    if d.entries.any (entryInRange startDate endDate) then
      let totalConsumed := (d.entries.map (fun e => e.product_Calories)).sum
      let dailyRate : ℚ := 2800
      let dailyLeft := dailyRate - totalConsumed
      let dailyPercentage := round2 (totalConsumed / dailyRate * 100)
      let newRec : SummaryRecord := ⟨d.id, dailyLeft, totalConsumed, dailyRate, dailyPercentage⟩
      let hist' :=
        match jsFindIndex
            (fun r => (resolve r.diaryId).any
              (fun e => localDay tz e.date == localDay tz dateTs)) hist with
        | some i => hist.set i newRec
        | none => hist ++ [newRec]
      .ok (newRec, hist')
    else .error .notFound

/-- The fixed blood-type code table of the recommendations router. -/
def bloodTypes : List String := ["0(I)", "A(II)", "B(III)", "AB(IV)"]

/-- `getBloodTypeIndex`: `Array.prototype.indexOf`, `-1` rendered as `none`. -/
def getBloodTypeIndex (bloodType : String) : Option Nat :=
  jsFindIndex (fun bt => bt == bloodType) bloodTypes

/-- The model of `a.title.localeCompare(b.title) ≤ 0`: a concrete total
preorder on titles, realised as code-point-lexicographic comparison. -/
def charListLe : List Char → List Char → Bool
  | [], _ => true
  | _ :: _, [] => false
  | a :: as, b :: bs =>
    if a.toNat < b.toNat then true
    else if b.toNat < a.toNat then false
    else charListLe as bs

/-- Title order on products used by `forbiddenProducts.sort`. -/
def titleLe (a b : Product) : Prop := charListLe a.title.data b.title.data = true

instance : DecidableRel titleLe := fun a b => by unfold titleLe; infer_instance

/-- The `product.groupBloodNotAllowed[bloodTypeIndex] === true` filter test
(an out-of-range index reads `undefined`, which is not `=== true`). -/
def restrictedAt (i : Nat) (p : Product) : Bool :=
  p.groupBloodNotAllowed.get? i == some (some true)

/-- The forbidden-products pipeline shared verbatim by both recommendation
routes: `filter` by restriction flag, `slice(0, 4)`, then `sort` by title. -/
def forbiddenFor (products : List Product) (i : Nat) : List Product :=
  List.insertionSort titleLe ((products.filter (restrictedAt i)).take 4)

/-- A recommendation request body; absent fields are `none`. -/
structure RecRequest where
  height : Option ℚ
  age : Option ℚ
  current_weight : Option ℚ
  desired_weight : Option ℚ
  blood_type : Option String
deriving DecidableEq, Repr

/-- JavaScript truthiness of a numeric request field (`0` is falsy). -/
def truthyNum : Option ℚ → Bool
  | none => false
  | some q => !(q == 0)

/-- JavaScript truthiness of a string request field (`""` is falsy). -/
def truthyStr : Option String → Bool
  | none => false
  | some s => !(s == "")

/-- Response of both recommendation routes. -/
structure RecResponse where
  dailyCalories : ℚ
  forbiddenProducts : List Product
  length : Nat
deriving DecidableEq, Repr

/-- `POST /public-recommendations` (recommendations router, lines 122-155):
validate the five fields, resolve the blood-type index, then
filter / slice(0,4) / sort and return the constant 2800 target. -/
def publicRecommendations (products : List Product) (r : RecRequest) :
    Except ApiError RecResponse :=
  if !(truthyNum r.height && truthyNum r.age && truthyNum r.current_weight &&
        truthyNum r.desired_weight && truthyStr r.blood_type) then
    .error .invalidInput
  else
    match r.blood_type with
    | none => .error .invalidInput
    | some bt =>
      match getBloodTypeIndex bt with
      | none => .error .invalidInput
      | some i =>
        let forbiddenProducts := forbiddenFor products i
        .ok ⟨2800, forbiddenProducts, forbiddenProducts.length⟩

/-- The stored calculator profile (`models/calculator` `data` item). -/
structure CalcData where
  height : ℚ
  age : ℚ
  current_weight : ℚ
  desired_weight : ℚ
  blood_type : String
deriving DecidableEq, Repr

/-- `POST /private-recommendations` (recommendations router, lines 197-256):
same validation and forbidden-products pipeline as the public route, but first
replaces the user's stored calculator data with the single submitted profile
(`existingData.data = [profile]`, or a fresh document with that one profile).
Returns the response together with the stored profile list. -/
def privateRecommendations (products : List Product) (_calcData : List CalcData)
    (r : RecRequest) : Except ApiError (RecResponse × List CalcData) :=
  if !(truthyNum r.height && truthyNum r.age && truthyNum r.current_weight &&
        truthyNum r.desired_weight && truthyStr r.blood_type) then
    .error .invalidInput
  else
    match r.height, r.age, r.current_weight, r.desired_weight, r.blood_type with
    | some h, some a, some cw, some dw, some bt =>
      match getBloodTypeIndex bt with
      | none => .error .invalidInput
      | some i =>
        let newData : List CalcData := [⟨h, a, cw, dw, bt⟩]
        let forbiddenProducts := forbiddenFor products i
        .ok (⟨2800, forbiddenProducts, forbiddenProducts.length⟩, newData)
    | _, _, _, _, _ => .error .invalidInput

/-- `DELETE /remove/:date/:productId` (auth.js:513-566).  Same two-day locating
window as the list route; the entry to delete is then matched by its own
subdocument `_id` (the `:productId` route parameter), anywhere in the entry
list, with no check of that entry's date; `splice(i, 1)` removes it. -/
def removeConsumption (diary? : Option Diary) (dateTs : Int) (entryId : String) :
    Except ApiError (List DiaryEntry) :=
  let startDate := utcDayStart dateTs
  let endDate := utcDayStart dateTs + 2 * msPerDay - 1
  match diary? with
  | none => .error .notFound
  | some d =>
    if d.entries.any (entryInRange startDate endDate) then
      match jsFindIndex (fun e => e.id == entryId) d.entries with
      | none => .error .notFound
      | some i => .ok (d.entries.eraseIdx i)
    else .error .notFound

/-! ## General lemmas about the upsert step -/

theorem jsFindIndex_eq_none_iff {α : Type} (p : α → Bool) (l : List α) :
    jsFindIndex p l = none ↔ ∀ a ∈ l, p a = false := by
  induction l with
  | nil => simp [jsFindIndex]
  | cons x xs ih =>
    by_cases hx : p x = true
    · simp [jsFindIndex, hx]
    · have hx' : p x = false := by simpa using hx
      simpa [jsFindIndex, hx'] using ih

/-- After a replace-or-append step whose new element matches the search
predicate, and starting from a list holding at most one match, the matches of
the result are exactly the new element. -/
theorem filter_upsertEntry (p : DiaryEntry → Bool) (l : List DiaryEntry) (a : DiaryEntry)
    (hpa : p a = true) (hcount : l.countP p ≤ 1) :
    (upsertEntry p l a).filter p = [a] := by
  induction l with
  | nil => simp [upsertEntry, jsFindIndex, hpa]
  | cons x xs ih =>
    by_cases hx : p x = true
    · have hcx : xs.countP p = 0 := by
        rw [List.countP_cons_of_pos p xs hx] at hcount
        omega
      have hfx : xs.filter p = [] := by
        rw [List.filter_eq_nil_iff]
        intro b hb
        simpa using List.countP_eq_zero.mp hcx b hb
      simp [upsertEntry, jsFindIndex, hx, hpa, hfx]
    · have hx' : p x = false := by simpa using hx
      have hcount' : xs.countP p ≤ 1 := by
        rw [List.countP_cons_of_neg p xs (by simp [hx'])] at hcount
        exact hcount
      have ih' := ih hcount'
      cases h : jsFindIndex p xs with
      | none =>
        rw [upsertEntry, h] at ih'
        simp only [upsertEntry, jsFindIndex, hx', if_false, h, Option.map_none', Bool.false_eq_true,
          List.cons_append]
        rw [List.filter_cons_of_neg (by simp [hx'])]
        exact ih'
      | some i =>
        rw [upsertEntry, h] at ih'
        simp only [upsertEntry, jsFindIndex, hx', if_false, h, Option.map_some', Bool.false_eq_true,
          List.set_cons_succ]
        rw [List.filter_cons_of_neg (by simp [hx'])]
        exact ih'

/-! ## C1 — idempotent per-product-per-day diary upsert -/

/-- C1: logging a consumption for a `(userId, productId)` pair that already has
an entry on the same UTC day replaces that entry in place at its existing
position, and logging when no such entry exists appends; hence after two
`logConsumption` calls for the same product on the same UTC day (starting from
a diary respecting the at-most-one-entry-per-product-per-day invariant) the
diary holds exactly one entry for that product and day, with the weight,
calories and timestamp of the second call. -/
theorem log_twice_same_day (catalog : List Product) (product : Product)
    (entries d1 d2 : List DiaryEntry) (pid : String) (w1 w2 : ℚ) (t1 t2 : Int)
    (id1 id2 : String)
    (hp : findProduct catalog pid = some product)
    (hw1 : w1 ≠ 0) (hw2 : w2 ≠ 0)
    (hday : utcDay t1 = utcDay t2)
    (hinv : entries.countP (matchesToday pid (utcDay t2)) ≤ 1)
    (h1 : logConsumption catalog entries (some pid) (some w1) t1 id1 = .ok d1)
    (h2 : logConsumption catalog d1 (some pid) (some w2) t2 id2 = .ok d2) :
    d2.filter (matchesToday pid (utcDay t2))
      = [⟨id2, pid, w2, product.calories * w2 / 100, t2⟩]
    ∧ (∀ l : List DiaryEntry, jsFindIndex (matchesToday pid (utcDay t2)) l = none →
        logConsumption catalog l (some pid) (some w2) t2 id2
          = .ok (l ++ [⟨id2, pid, w2, product.calories * w2 / 100, t2⟩]))
    ∧ (∀ (l : List DiaryEntry) (i : Nat),
        jsFindIndex (matchesToday pid (utcDay t2)) l = some i →
        logConsumption catalog l (some pid) (some w2) t2 id2
          = .ok (l.set i ⟨id2, pid, w2, product.calories * w2 / 100, t2⟩)) := by
  simp only [logConsumption, hp, hw1, if_false, Except.ok.injEq] at h1
  simp only [logConsumption, hp, hw2, if_false, Except.ok.injEq] at h2
  rw [hday] at h1
  have hpa1 : matchesToday pid (utcDay t2) ⟨id1, pid, w1, product.calories * w1 / 100, t1⟩
      = true := by
    simp [matchesToday, hday]
  have hpa2 : matchesToday pid (utcDay t2) ⟨id2, pid, w2, product.calories * w2 / 100, t2⟩
      = true := by
    simp [matchesToday]
  have hd1 : d1.filter (matchesToday pid (utcDay t2))
      = [⟨id1, pid, w1, product.calories * w1 / 100, t1⟩] := by
    rw [← h1]
    exact filter_upsertEntry _ _ _ hpa1 hinv
  have hc1 : d1.countP (matchesToday pid (utcDay t2)) ≤ 1 := by
    rw [List.countP_eq_length_filter, hd1]
    simp
  refine ⟨?_, ?_, ?_⟩
  · rw [← h2]
    exact filter_upsertEntry _ _ _ hpa2 hc1
  · intro l hnone
    simp [logConsumption, hp, hw2, upsertEntry, hnone]
  · intro l i hsome
    simp [logConsumption, hp, hw2, upsertEntry, hsome]

/-- The demo product of the spec's scenario: 342 calories per 100 units. -/
def demoProduct : Product :=
  ⟨"p1", "Omelet with cheese", 342, [none, some true, some true, some true, some true]⟩

/-- The spec's own scenario instantiating C1: log 150 g of the 342-calorie
product (513 kcal entry), then 50 g on the same UTC day; a single entry
remains, holding 171 kcal. -/
theorem log_twice_same_day_witness :
    logConsumption [demoProduct] [] (some "p1") (some 150) 0 "e1"
      = .ok [⟨"e1", "p1", 150, 513, 0⟩]
    ∧ logConsumption [demoProduct] [⟨"e1", "p1", 150, 513, 0⟩] (some "p1") (some 50)
        3600000 "e2" = .ok [⟨"e2", "p1", 50, 171, 3600000⟩]
    ∧ [⟨"e2", "p1", 50, 171, 3600000⟩].filter (matchesToday "p1" (utcDay 3600000))
      = [⟨"e2", "p1", 50, 171, 3600000⟩] := by
  have hp : findProduct [demoProduct] "p1" = some demoProduct := by
    simp [findProduct, demoProduct, List.find?]
  have h1 : logConsumption [demoProduct] [] (some "p1") (some 150) 0 "e1"
      = .ok [⟨"e1", "p1", 150, 513, 0⟩] := by
    simp only [logConsumption, hp]
    norm_num [upsertEntry, jsFindIndex, demoProduct]
  have h2 : logConsumption [demoProduct] [⟨"e1", "p1", 150, 513, 0⟩] (some "p1") (some 50)
      3600000 "e2" = .ok [⟨"e2", "p1", 50, 171, 3600000⟩] := by
    simp only [logConsumption, hp]
    norm_num [upsertEntry, jsFindIndex, matchesToday, utcDay, msPerDay, demoProduct]
  refine ⟨h1, h2, ?_⟩
  have h3 := (log_twice_same_day [demoProduct] demoProduct [] _ _ "p1" 150 50 0 3600000
    "e1" "e2" hp (by norm_num) (by norm_num) (by decide) (by simp) h1 h2).1
  have hcal : demoProduct.calories * 50 / 100 = (171 : ℚ) := by norm_num [demoProduct]
  rw [hcal] at h3
  exact h3

/-! ## C10 — removal locates by a two-day window, then deletes by id only -/

/-- C10: the diary-locating query of `DELETE /remove/:date/:productId` accepts
any entry dated from the start of the requested UTC day through the end of the
*following* UTC day, and once a diary is located the deleted entry is matched
by its `_id` anywhere in the entry collection, with no check that its date
falls on the requested day: under those two conditions the removal succeeds
and erases exactly the id-matched position, whatever its date. -/
theorem remove_matches_by_id_ignoring_day (d : Diary) (dateTs : Int) (entryId : String)
    (i : Nat)
    (hwin : d.entries.any
      (entryInRange (utcDayStart dateTs) (utcDayStart dateTs + 2 * msPerDay - 1)) = true)
    (hfind : jsFindIndex (fun e => e.id == entryId) d.entries = some i) :
    removeConsumption (some d) dateTs entryId = .ok (d.entries.eraseIdx i)
    ∧ ∀ e : DiaryEntry, utcDay e.date = utcDay dateTs + 1 →
        entryInRange (utcDayStart dateTs) (utcDayStart dateTs + 2 * msPerDay - 1) e = true := by
  constructor
  · simp [removeConsumption, hwin, hfind]
  · intro e he
    simp only [entryInRange, utcDayStart, utcDay, msPerDay, Bool.and_eq_true,
      decide_eq_true_eq] at he ⊢
    omega

/-- Concrete run of C10: the diary holds an entry of day 0 (which lets the
day-0 query locate the diary) and an entry `"b"` of day 30; removing with
`date` = day 0 and the id `"b"` succeeds and deletes the day-30 entry. -/
theorem remove_matches_by_id_ignoring_day_witness :
    removeConsumption
        (some ⟨"d1", "u1", [⟨"a", "p1", 1, 1, 0⟩, ⟨"b", "p2", 2, 2, 2592000000⟩]⟩)
        0 "b"
      = .ok [⟨"a", "p1", 1, 1, 0⟩]
    ∧ utcDay 2592000000 ≠ utcDay 0 := by
  constructor
  · have h := (remove_matches_by_id_ignoring_day
      ⟨"d1", "u1", [⟨"a", "p1", 1, 1, 0⟩, ⟨"b", "p2", 2, 2, 2592000000⟩]⟩
      0 "b" 1 (by decide) (by decide)).1
    simpa using h
  · decide

/-! ## C2 — write and read do not agree on an entry's day
(the list route's final filter uses the process-local calendar day) -/

/-- C2 fails on the code: an entry written by the upsert path at 23:59 UTC of
day 0 belongs to UTC day 0 (the write path's bucket), yet in a process sitting
at UTC+2 (`tz = 120`) the read of day 0 returns nothing, because the list
route's final filter compares `toDateString()` values, i.e. process-local
calendar days.  With `tz = 0` the same read returns the entry, so the result
depends on the process timezone. -/
theorem write_read_day_disagreement :
    logConsumption [demoProduct] [] (some "p1") (some 100) 86340000 "e1"
      = .ok [⟨"e1", "p1", 100, 342, 86340000⟩]
    ∧ utcDay 86340000 = utcDay 0
    ∧ listConsumption 120 (some ⟨"d1", "u1", [⟨"e1", "p1", 100, 342, 86340000⟩]⟩) 0 = []
    ∧ listConsumption 0 (some ⟨"d1", "u1", [⟨"e1", "p1", 100, 342, 86340000⟩]⟩) 0
      = [⟨"e1", "p1", 100, 342, 86340000⟩] := by
  refine ⟨?_, by decide, by decide, by decide⟩
  have hp : findProduct [demoProduct] "p1" = some demoProduct := by
    simp [findProduct, demoProduct, List.find?]
  simp only [logConsumption, hp]
  norm_num [upsertEntry, jsFindIndex, demoProduct]

/-! ## Day-window arithmetic -/

/-- An instant lies in the local-day window of `t` exactly when it falls on the
same local calendar day as `t`. -/
theorem mem_local_window_iff (tz t x : Int) :
    (startOfLocalDay tz t ≤ x ∧ x ≤ startOfLocalDay tz t + msPerDay - 1) ↔
      localDay tz x = localDay tz t := by
  simp only [startOfLocalDay, localDay, utcDay, msPerDay]
  omega

/-! ## C4 — no summary is synthesized for an empty day (local-day window) -/

/-- C4, amended: the summary's locating query uses the *process-local* day
window (`date-fns` `startOfDay`/`endOfDay`), not the UTC one; whenever the
diary is missing, or none of its entries falls inside
`[startOfLocalDay(date), startOfLocalDay(date) + msPerDay - 1]`, the call
fails with `notFound` and no record is produced. -/
theorem summary_empty_day_notFound (tz : Int) (resolve : String → List DiaryEntry)
    (hist : List SummaryRecord) (dateTs : Int) :
    getDailySummary tz resolve none hist dateTs = .error .notFound
    ∧ ∀ d : Diary,
        (∀ e ∈ d.entries,
          ¬(startOfLocalDay tz dateTs ≤ e.date ∧
            e.date ≤ startOfLocalDay tz dateTs + msPerDay - 1)) →
        getDailySummary tz resolve (some d) hist dateTs = .error .notFound := by
  refine ⟨rfl, ?_⟩
  intro d h
  have hcond : d.entries.any
      (entryInRange (startOfLocalDay tz dateTs) (startOfLocalDay tz dateTs + msPerDay - 1))
      = false := by
    rw [List.any_eq_false]
    intro e he
    simp only [entryInRange, Bool.and_eq_true, decide_eq_true_eq]
    exact h e he
  simp [getDailySummary, hcond]

/-- Concrete run of C4 (amended): a diary whose only entry sits on local day 5
yields `notFound` for a day-0 summary request. -/
theorem summary_empty_day_notFound_witness :
    getDailySummary 0 (fun _ => []) (some ⟨"d1", "u1", [⟨"e1", "p1", 100, 100, 432000000⟩]⟩)
      [] 0 = .error .notFound := by
  exact (summary_empty_day_notFound 0 (fun _ => []) [] 0).2
    ⟨"d1", "u1", [⟨"e1", "p1", 100, 100, 432000000⟩]⟩ (by decide)

/-- C4 as frozen is false on the code: in a process sitting at UTC+2
(`tz = 120`), a diary whose only entry is at 23:00 UTC of day 0 has **no**
entry in the UTC-day window of day 1, yet the day-1 summary request succeeds,
because the locating window is the *local* day (local day 1 spans
`[79200000, 165599999]` and contains the entry). -/
theorem summary_utc_empty_day_still_found :
    (∀ e ∈ (⟨"d1", "u1", [⟨"e1", "p1", 100, 100, 82800000⟩]⟩ : Diary).entries,
      ¬(utcDayStart 86400000 ≤ e.date ∧ e.date ≤ utcDayStart 86400000 + msPerDay - 1))
    ∧ (getDailySummary 120 (fun _ => [])
        (some ⟨"d1", "u1", [⟨"e1", "p1", 100, 100, 82800000⟩]⟩) [] 86400000).isOk = true := by
  constructor
  · decide
  · decide

/-! ## Concrete summary scenarios -/

/-- A diary with one entry on day 0 (100 kcal) and one on day 1 (200 kcal). -/
def twoDayDiary : Diary :=
  ⟨"d1", "u1", [⟨"e1", "p1", 100, 100, 0⟩, ⟨"e2", "p2", 100, 200, 86400000⟩]⟩

/-- The record `GET /summary` computes on `twoDayDiary` for *any* located day:
the reduce runs over both entries, so consumed is 300 and
`percentage = round2(300/2800*100) = 10.71`. -/
def recBoth : SummaryRecord := ⟨"d1", 2500, 300, 2800, 1071 / 100⟩

theorem summary_twoDay_day0 :
    getDailySummary 0 (fun _ => twoDayDiary.entries) (some twoDayDiary) [] 0
      = .ok (recBoth, [recBoth]) := by
  have hcond : twoDayDiary.entries.any
      (entryInRange (startOfLocalDay 0 0) (startOfLocalDay 0 0 + msPerDay - 1)) = true := by
    decide
  simp only [getDailySummary, hcond, if_true, jsFindIndex, List.nil_append]
  norm_num [twoDayDiary, recBoth, round2, round_eq]

theorem summary_twoDay_day1 :
    getDailySummary 0 (fun _ => twoDayDiary.entries) (some twoDayDiary) [recBoth] 86400000
      = .ok (recBoth, [recBoth]) := by
  have hcond : twoDayDiary.entries.any
      (entryInRange (startOfLocalDay 0 86400000)
        (startOfLocalDay 0 86400000 + msPerDay - 1)) = true := by
    decide
  have hfind : jsFindIndex
      (fun r => ((fun _ => twoDayDiary.entries) r.diaryId).any
        (fun e => localDay 0 e.date == localDay 0 86400000)) [recBoth] = some 0 := by
    decide
  simp only [getDailySummary, hcond, if_true, hfind, List.set_cons_zero]
  norm_num [twoDayDiary, recBoth, round2, round_eq]

/-! ## C3 — `daily_consumed` is the sum over the whole diary, not the day -/

/-- C3 fails on the code: the `reduce` of `GET /summary/:date` (summery.js:135)
runs over **every** entry of the located diary document, not just the entries
of the requested day.  On `twoDayDiary` (100 kcal on day 0, 200 kcal on day 1)
the day-0 summary reports `daily_consumed = 300`, while the sum over the
entries inside the day-0 window is 100. -/
theorem summary_sums_all_entries :
    getDailySummary 0 (fun _ => twoDayDiary.entries) (some twoDayDiary) [] 0
      = .ok (recBoth, [recBoth])
    ∧ ((twoDayDiary.entries.filter
          (entryInRange (startOfLocalDay 0 0) (startOfLocalDay 0 0 + msPerDay - 1))).map
        (fun e => e.product_Calories)).sum = 100
    ∧ recBoth.daily_consumed = 300
    ∧ (300 : ℚ) ≠ 100 := by
  refine ⟨summary_twoDay_day0, ?_, rfl, by norm_num⟩
  have hf : twoDayDiary.entries.filter
      (entryInRange (startOfLocalDay 0 0) (startOfLocalDay 0 0 + msPerDay - 1))
      = [⟨"e1", "p1", 100, 100, 0⟩] := by decide
  rw [hf]
  norm_num

/-! ## C5 — the summary history keeps a single record, not one per day -/

/-- C5, amended: on every successful `GET /summary/:date` the history upsert
looks for the *first* record whose resolved diary holds an entry on the same
local calendar day as the request and overwrites it, else appends.  Since every
record written by this route references the user's single diary — and the
located diary always holds an entry on the requested day — a non-empty history
always gets its first record overwritten: the history never grows past one
record, so distinct days do *not* each get their own record. -/
theorem summary_history_single_record (tz : Int) (resolve : String → List DiaryEntry)
    (d : Diary) (hist : List SummaryRecord) (dateTs : Int) (rec : SummaryRecord)
    (hist' : List SummaryRecord)
    (hresolve : ∀ r ∈ hist, resolve r.diaryId = d.entries)
    (hok : getDailySummary tz resolve (some d) hist dateTs = .ok (rec, hist')) :
    (hist = [] → hist' = [rec]) ∧ (hist ≠ [] → hist' = hist.set 0 rec)
    ∧ hist'.length = max hist.length 1 := by
  by_cases hcond : d.entries.any
      (entryInRange (startOfLocalDay tz dateTs) (startOfLocalDay tz dateTs + msPerDay - 1))
      = true
  · obtain ⟨e, he, hewin⟩ := List.any_eq_true.mp hcond
    have heday : localDay tz e.date = localDay tz dateTs := by
      apply (mem_local_window_iff tz dateTs e.date).mp
      simpa [entryInRange] using hewin
    cases hist with
    | nil =>
      simp only [getDailySummary, hcond, if_true, jsFindIndex, List.nil_append,
        Except.ok.injEq, Prod.mk.injEq] at hok
      obtain ⟨hrec, hhist⟩ := hok
      refine ⟨fun _ => ?_, fun hne => absurd rfl hne, ?_⟩
      · rw [← hhist, hrec]
      · rw [← hhist]
        simp
    | cons r0 rest =>
      have hp0 : ((resolve r0.diaryId).any
          (fun e => localDay tz e.date == localDay tz dateTs)) = true := by
        rw [hresolve r0 (by simp)]
        exact List.any_eq_true.mpr ⟨e, he, by simp [heday]⟩
      have hfind : jsFindIndex
          (fun r => (resolve r.diaryId).any
            (fun e => localDay tz e.date == localDay tz dateTs)) (r0 :: rest) = some 0 := by
        simp [jsFindIndex, hp0]
      simp only [getDailySummary, hcond, if_true, hfind, List.set_cons_zero,
        Except.ok.injEq, Prod.mk.injEq] at hok
      obtain ⟨hrec, hhist⟩ := hok
      refine ⟨fun hnil => absurd hnil (List.cons_ne_nil r0 rest), fun _ => ?_, ?_⟩
      · rw [← hhist, hrec, List.set_cons_zero]
      · rw [← hhist]
        simp [Nat.max_eq_left]
  · simp [getDailySummary, hcond] at hok

/-- C5 as frozen is false on the code: after a successful day-0 summary the
history is `[recBoth]`; the day-1 summary — a *distinct* calendar day — does
not append a second record but overwrites the first (its resolved diary has an
entry on day 1), leaving a single record, where the claim promises one record
per distinct day. -/
theorem summary_history_overwrites_across_days :
    localDay 0 86400000 ≠ localDay 0 0
    ∧ getDailySummary 0 (fun _ => twoDayDiary.entries) (some twoDayDiary) [] 0
        = .ok (recBoth, [recBoth])
    ∧ getDailySummary 0 (fun _ => twoDayDiary.entries) (some twoDayDiary) [recBoth] 86400000
        = .ok (recBoth, [recBoth])
    ∧ ([recBoth] : List SummaryRecord).length ≠ 2 := by
  exact ⟨by decide, summary_twoDay_day0, summary_twoDay_day1, by decide⟩

/-- Witness for the amended C5 at the concrete day-1 call on `twoDayDiary`
with the single-record history `[recBoth]`: the updated history is
`[recBoth].set 0 recBoth` and still has length 1. -/
theorem summary_history_single_record_witness :
    ([recBoth] : List SummaryRecord) ≠ []
    ∧ ([recBoth] : List SummaryRecord) = [recBoth].set 0 recBoth
    ∧ ([recBoth] : List SummaryRecord).length = max ([recBoth] : List SummaryRecord).length 1 := by
  have h := summary_history_single_record 0 (fun _ => twoDayDiary.entries) twoDayDiary
    [recBoth] 86400000 recBoth [recBoth]
    (by intro r hr; rfl) summary_twoDay_day1
  exact ⟨by simp, h.2.1 (by simp), h.2.2⟩

/-! ## C7 / C8 — algebra of the computed record -/

/-- C7: every record computed by `GET /summary/:date` satisfies
`daily_left = daily_rate - daily_consumed`, hence
`daily_consumed + daily_left = daily_rate` exactly (the embedding computes in
`ℚ`, so no rounding enters). -/
theorem summary_left_eq_rate_sub_consumed (tz : Int) (resolve : String → List DiaryEntry)
    (diary? : Option Diary) (hist : List SummaryRecord) (dateTs : Int)
    (rec : SummaryRecord) (hist' : List SummaryRecord)
    (hok : getDailySummary tz resolve diary? hist dateTs = .ok (rec, hist')) :
    rec.daily_left = rec.daily_rate - rec.daily_consumed
    ∧ rec.daily_consumed + rec.daily_left = rec.daily_rate := by
  cases diary? with
  | none => simp [getDailySummary] at hok
  | some d =>
    by_cases hcond : d.entries.any
        (entryInRange (startOfLocalDay tz dateTs)
          (startOfLocalDay tz dateTs + msPerDay - 1)) = true
    · simp only [getDailySummary, hcond, if_true, Except.ok.injEq, Prod.mk.injEq] at hok
      obtain ⟨hrec, -⟩ := hok
      rw [← hrec]
      constructor
      · simp
      · simp
    · simp [getDailySummary, hcond] at hok

/-- A diary whose single entry exceeds the 2800 kcal budget. -/
def overBudgetDiary : Diary := ⟨"d7", "u7", [⟨"e1", "p1", 1000, 3000, 0⟩]⟩

/-- The record computed for `overBudgetDiary`: 3000 kcal consumed, -200 left,
`percentage = round2(3000/2800*100) = 107.14`. -/
def overBudgetRec : SummaryRecord := ⟨"d7", -200, 3000, 2800, 10714 / 100⟩

theorem summary_overBudget_eval :
    getDailySummary 0 (fun _ => []) (some overBudgetDiary) [] 0
      = .ok (overBudgetRec, [overBudgetRec]) := by
  have hcond : overBudgetDiary.entries.any
      (entryInRange (startOfLocalDay 0 0) (startOfLocalDay 0 0 + msPerDay - 1)) = true := by
    decide
  simp only [getDailySummary, hcond, if_true, jsFindIndex, List.nil_append]
  norm_num [overBudgetDiary, overBudgetRec, round2, round_eq]

/-- Witness for C7 at a concrete over-budget day: the identity holds and the
negative `daily_left` is a valid result, not an error. -/
theorem summary_left_eq_rate_sub_consumed_witness :
    getDailySummary 0 (fun _ => []) (some overBudgetDiary) [] 0
      = .ok (overBudgetRec, [overBudgetRec])
    ∧ overBudgetRec.daily_consumed + overBudgetRec.daily_left = overBudgetRec.daily_rate
    ∧ overBudgetRec.daily_left < 0 := by
  refine ⟨summary_overBudget_eval, ?_, by norm_num [overBudgetRec]⟩
  exact (summary_left_eq_rate_sub_consumed 0 (fun _ => []) (some overBudgetDiary) [] 0
    overBudgetRec [overBudgetRec] summary_overBudget_eval).2

/-- C8: every record computed by `GET /summary/:date` carries
`percentage = round2 (100 * daily_consumed / daily_rate)` — the numeric value
of `((totalConsumed / dailyRate) * 100).toFixed(2)`. -/
theorem summary_percentage_round2 (tz : Int) (resolve : String → List DiaryEntry)
    (diary? : Option Diary) (hist : List SummaryRecord) (dateTs : Int)
    (rec : SummaryRecord) (hist' : List SummaryRecord)
    (hok : getDailySummary tz resolve diary? hist dateTs = .ok (rec, hist')) :
    rec.percentage = round2 (100 * rec.daily_consumed / rec.daily_rate) := by
  cases diary? with
  | none => simp [getDailySummary] at hok
  | some d =>
    by_cases hcond : d.entries.any
        (entryInRange (startOfLocalDay tz dateTs)
          (startOfLocalDay tz dateTs + msPerDay - 1)) = true
    · simp only [getDailySummary, hcond, if_true, Except.ok.injEq, Prod.mk.injEq] at hok
      obtain ⟨hrec, -⟩ := hok
      rw [← hrec]
      simp [round2]
      ring_nf
    · simp [getDailySummary, hcond] at hok

/-- Witness for C8 at the concrete over-budget day:
`107.14 = round2 (100 * 3000 / 2800)`. -/
theorem summary_percentage_round2_witness :
    getDailySummary 0 (fun _ => []) (some overBudgetDiary) [] 0
      = .ok (overBudgetRec, [overBudgetRec])
    ∧ overBudgetRec.percentage
      = round2 (100 * overBudgetRec.daily_consumed / overBudgetRec.daily_rate) := by
  exact ⟨summary_overBudget_eval,
    summary_percentage_round2 0 (fun _ => []) (some overBudgetDiary) [] 0
      overBudgetRec [overBudgetRec] summary_overBudget_eval⟩

/-! ## C9 — input validation of the consumption log -/

/-- C9 as frozen is false on the code: the check
`if (!productId || !product_weight)` only rejects *falsy* weights (missing or
`0`).  A strictly negative weight is truthy, passes validation, and the entry
is logged: with the 342 kcal/100 g product, weight `-50` yields a stored entry
of `-171` "calories". -/
theorem log_negative_weight_accepted :
    logConsumption [demoProduct] [] (some "p1") (some (-50)) 0 "e1"
      = .ok [⟨"e1", "p1", -50, -171, 0⟩]
    ∧ ((-50 : ℚ) ≤ 0 ∧ (-50 : ℚ) ≠ 0) := by
  refine ⟨?_, by norm_num, by norm_num⟩
  have hp : findProduct [demoProduct] "p1" = some demoProduct := by
    simp [findProduct, demoProduct, List.find?]
  simp only [logConsumption, hp]
  norm_num [upsertEntry, jsFindIndex, demoProduct]

/-- C9, amended: `logConsumption` fails with `invalidInput` exactly when the
product id is missing or the weight is missing or `0` (JavaScript falsiness);
for any *non-zero* weight — negative weights included — it fails `notFound`
when the product id does not resolve, and otherwise succeeds, performing the
per-day upsert. -/
theorem log_validation (catalog : List Product) (entries : List DiaryEntry)
    (productId? : Option String) (product_weight? : Option ℚ) (now : Int) (newId : String) :
    ((productId? = none ∨ product_weight? = none ∨ product_weight? = some 0) →
      logConsumption catalog entries productId? product_weight? now newId
        = .error .invalidInput)
    ∧ (∀ pid w, productId? = some pid → product_weight? = some w → w ≠ 0 →
        findProduct catalog pid = none →
        logConsumption catalog entries productId? product_weight? now newId
          = .error .notFound)
    ∧ (∀ pid w product, productId? = some pid → product_weight? = some w → w ≠ 0 →
        findProduct catalog pid = some product →
        logConsumption catalog entries productId? product_weight? now newId
          = .ok (upsertEntry (matchesToday pid (utcDay now)) entries
              ⟨newId, pid, w, product.calories * w / 100, now⟩)) := by
  refine ⟨?_, ?_, ?_⟩
  · rintro (h | h | h)
    · cases product_weight? <;> simp [h, logConsumption]
    · cases productId? <;> simp [h, logConsumption]
    · cases productId? <;> simp [h, logConsumption]
  · intro pid w hpid hw hw0 hfind
    simp [hpid, hw, logConsumption, hw0, hfind]
  · intro pid w product hpid hw hw0 hfind
    simp [hpid, hw, logConsumption, hw0, hfind]

/-- Witness for the amended C9: the missing-weight, zero-weight, unknown
product and negative-weight-success branches, each at a concrete input. -/
theorem log_validation_witness :
    logConsumption [demoProduct] [] (some "p1") none 0 "e1" = .error .invalidInput
    ∧ logConsumption [demoProduct] [] (some "p1") (some 0) 0 "e1" = .error .invalidInput
    ∧ logConsumption [demoProduct] [] (some "nope") (some 100) 0 "e1" = .error .notFound
    ∧ logConsumption [demoProduct] [] (some "p1") (some (-50)) 0 "e1"
      = .ok (upsertEntry (matchesToday "p1" (utcDay 0)) []
          ⟨"e1", "p1", -50, demoProduct.calories * -50 / 100, 0⟩) := by
  refine ⟨?_, ?_, ?_, ?_⟩
  · exact (log_validation [demoProduct] [] (some "p1") none 0 "e1").1 (Or.inr (Or.inl rfl))
  · exact (log_validation [demoProduct] [] (some "p1") (some 0) 0 "e1").1
      (Or.inr (Or.inr rfl))
  · exact (log_validation [demoProduct] [] (some "nope") (some 100) 0 "e1").2.1
      "nope" 100 rfl rfl (by norm_num) (by simp [findProduct, demoProduct, List.find?])
  · exact (log_validation [demoProduct] [] (some "p1") (some (-50)) 0 "e1").2.2
      "p1" (-50) demoProduct rfl rfl (by norm_num)
      (by simp [findProduct, demoProduct, List.find?])

/-! ## C6 — forbidden products: filter, truncate to 4, then sort by title -/

theorem charListLe_total : ∀ a b : List Char,
    charListLe a b = true ∨ charListLe b a = true := by
  intro a
  induction a with
  | nil => intro b; left; simp [charListLe]
  | cons x xs ih =>
    intro b
    cases b with
    | nil => right; simp [charListLe]
    | cons y ys =>
      by_cases h1 : x.toNat < y.toNat
      · left; simp [charListLe, h1]
      · by_cases h2 : y.toNat < x.toNat
        · right; simp [charListLe, h2]
        · have hxy : ¬x.toNat < y.toNat := h1
          rcases ih ys with h | h
          · left; simp [charListLe, h1, h2, h]
          · right; simp [charListLe, h1, h2, h]

theorem charListLe_trans : ∀ a b c : List Char,
    charListLe a b = true → charListLe b c = true → charListLe a c = true := by
  intro a
  induction a with
  | nil => intro b c _ _; simp [charListLe]
  | cons x xs ih =>
    intro b c hab hbc
    cases b with
    | nil => simp [charListLe] at hab
    | cons y ys =>
      cases c with
      | nil => simp [charListLe] at hbc
      | cons z zs =>
        simp only [charListLe] at hab hbc ⊢
        by_cases h1 : x.toNat < y.toNat
        · by_cases h2 : y.toNat < z.toNat
          · have : x.toNat < z.toNat := by omega
            simp [this]
          · rw [if_neg h2] at hbc
            by_cases h3 : z.toNat < y.toNat
            · rw [if_pos h3] at hbc
              exact absurd hbc (by simp)
            · have : x.toNat < z.toNat := by omega
              simp [this]
        · rw [if_neg h1] at hab
          by_cases h4 : y.toNat < x.toNat
          · rw [if_pos h4] at hab
            exact absurd hab (by simp)
          · rw [if_neg h4] at hab
            by_cases h2 : y.toNat < z.toNat
            · have : x.toNat < z.toNat := by omega
              simp [this]
            · rw [if_neg h2] at hbc
              by_cases h3 : z.toNat < y.toNat
              · rw [if_pos h3] at hbc
                exact absurd hbc (by simp)
              · rw [if_neg h3] at hbc
                have hxz : ¬x.toNat < z.toNat := by omega
                have hzx : ¬z.toNat < x.toNat := by omega
                rw [if_neg hxz, if_neg hzx]
                exact ih ys zs hab hbc

instance : IsTotal Product titleLe :=
  ⟨fun a b => charListLe_total a.title.data b.title.data⟩

instance : IsTrans Product titleLe :=
  ⟨fun a b c hab hbc => charListLe_trans a.title.data b.title.data c.title.data hab hbc⟩

/-- C6: for every valid recommendation request, both routes compute the
forbidden list by filtering the catalog on the restriction flag at the resolved
blood-type index, truncating the *filtered, not yet sorted* list to its first 4
elements, and sorting those by title; the resulting list has length at most 4
and is sorted by title. -/
theorem recommendations_filter_take_sort (products : List Product) (r : RecRequest)
    (calcData : List CalcData) (bt : String) (i : Nat)
    (hh : truthyNum r.height = true) (ha : truthyNum r.age = true)
    (hcw : truthyNum r.current_weight = true) (hdw : truthyNum r.desired_weight = true)
    (hbt : r.blood_type = some bt) (hbt0 : bt ≠ "")
    (hidx : getBloodTypeIndex bt = some i) :
    publicRecommendations products r
      = .ok ⟨2800, forbiddenFor products i, (forbiddenFor products i).length⟩
    ∧ (∃ storedProfile, privateRecommendations products calcData r
        = .ok (⟨2800, forbiddenFor products i, (forbiddenFor products i).length⟩,
            storedProfile))
    ∧ forbiddenFor products i
      = List.insertionSort titleLe ((products.filter (restrictedAt i)).take 4)
    ∧ (forbiddenFor products i).length ≤ 4
    ∧ List.Sorted titleLe (forbiddenFor products i) := by
  have hbtt : truthyStr r.blood_type = true := by
    rw [hbt]
    simpa [truthyStr] using hbt0
  obtain ⟨hv, hav⟩ : ∃ hv, r.height = some hv := by
    cases hr : r.height with
    | none => rw [hr] at hh; simp [truthyNum] at hh
    | some v => exact ⟨v, rfl⟩
  obtain ⟨av, hav2⟩ : ∃ av, r.age = some av := by
    cases hr : r.age with
    | none => rw [hr] at ha; simp [truthyNum] at ha
    | some v => exact ⟨v, rfl⟩
  obtain ⟨cv, hcv⟩ : ∃ cv, r.current_weight = some cv := by
    cases hr : r.current_weight with
    | none => rw [hr] at hcw; simp [truthyNum] at hcw
    | some v => exact ⟨v, rfl⟩
  obtain ⟨dv, hdv⟩ : ∃ dv, r.desired_weight = some dv := by
    cases hr : r.desired_weight with
    | none => rw [hr] at hdw; simp [truthyNum] at hdw
    | some v => exact ⟨v, rfl⟩
  have hbtt' : truthyStr (some bt) = true := by simpa [truthyStr] using hbt0
  have hh' : truthyNum (some hv) = true := hav ▸ hh
  have ha' : truthyNum (some av) = true := hav2 ▸ ha
  have hcw' : truthyNum (some cv) = true := hcv ▸ hcw
  have hdw' : truthyNum (some dv) = true := hdv ▸ hdw
  refine ⟨?_, ⟨[⟨hv, av, cv, dv, bt⟩], ?_⟩, rfl, ?_, ?_⟩
  · simp [publicRecommendations, hh, ha, hcw, hdw, hbtt, hbt, hidx, hh', ha', hcw', hdw',
      hbtt']
  · simp [privateRecommendations, hh, ha, hcw, hdw, hbtt, hbt, hidx, hav, hav2, hcv, hdv,
      hh', ha', hcw', hdw', hbtt']
  · have hperm := List.perm_insertionSort titleLe ((products.filter (restrictedAt i)).take 4)
    have hlen : (forbiddenFor products i).length
        = ((products.filter (restrictedAt i)).take 4).length := hperm.length_eq
    rw [forbiddenFor] at hlen ⊢
    rw [hlen, List.length_take]
    exact min_le_left 4 _
  · exact List.sorted_insertionSort titleLe _

def pEggs : Product := ⟨"r1", "eggs", 100, [none, some true, some false, none]⟩

def pBread : Product := ⟨"r2", "bread", 200, [some true, some true, some true, some true]⟩

def pFish : Product := ⟨"r3", "fish", 50, [none, some true, none, none]⟩

def pApple : Product := ⟨"r4", "apple", 47, [some false, some true, some false, some false]⟩

def pDate : Product := ⟨"r5", "date", 282, [none, some true, some true, none]⟩

/-- A catalog with five products restricted for blood type `A(II)` (index 1),
listed in non-alphabetical order. -/
def recCatalog : List Product := [pEggs, pBread, pFish, pApple, pDate]

def recReq : RecRequest := ⟨some 170, some 30, some 70, some 65, some "A(II)"⟩

/-- Witness for C6: all five catalog products match the `A(II)` restriction,
the first 4 *in catalog order* are kept and then sorted
(`apple, bread, eggs, fish`), and `date` — alphabetically before `eggs` — is
absent because truncation happens before sorting. -/
theorem recommendations_filter_take_sort_witness :
    forbiddenFor recCatalog 1 = [pApple, pBread, pEggs, pFish]
    ∧ publicRecommendations recCatalog recReq
      = .ok ⟨2800, [pApple, pBread, pEggs, pFish], 4⟩
    ∧ List.Sorted titleLe [pApple, pBread, pEggs, pFish]
    ∧ restrictedAt 1 pDate = true
    ∧ pDate ∉ [pApple, pBread, pEggs, pFish] := by
  have hff : forbiddenFor recCatalog 1 = [pApple, pBread, pEggs, pFish] := by decide
  have h := recommendations_filter_take_sort recCatalog recReq [] "A(II)" 1
    (by decide) (by decide) (by decide) (by decide) rfl (by decide) (by decide)
  refine ⟨hff, ?_, hff ▸ h.2.2.2.2, by decide, by decide⟩
  have h1 := h.1
  rw [hff] at h1
  simpa using h1
